import Mathlib

/-!
Verification of the alias-resolution cache of the updown Go client.

The repository's check-listing path embeds a lazily populated cache mapping
a check alias to its API token, consulted by `CheckService.TokenForAlias`.
The Go file defining `TokenForAlias`, `ErrTokenNotFound` and the cache
itself is absent from the available source tree (only its integration
tests, the README and the unrelated resource services are present), so the
cache and its resolve protocol are modelled here from the specification
(§3, §4.1, §7) and checked against the behaviour the tests assert.
-/

/-- A check record as returned by the remote full-list fetch: the `Alias`
and `Token` fields of the Go `Check` struct, the only two fields the cache
rebuild consumes. -/
structure CheckRecord where
  Alias : String
  Token : String
  deriving DecidableEq

/-- Insert a key into an association list with Go-map update semantics:
replace the value of an existing key in place, otherwise append. -/
def mapInsert : List (String × String) → String → String → List (String × String)
  | [], k, v => [(k, v)]
  | (k', v') :: rest, k, v =>
      if k' = k then (k, v) :: rest else (k', v') :: mapInsert rest k v

/-- Look a key up in an association list (Go-map read: at most one entry
per key, found by literal string equality). -/
def lookupCache : List (String × String) → String → Option String
  | [], _ => none
  | (k', v) :: rest, k => if k' = k then some v else lookupCache rest k

/-- Modelled from the spec: the alias cache owned by the client (the Go
client's alias→token map, whose defining source file is missing from the
tree). `entries` is the mapping; `filled` records whether a successful
fill has ever happened, distinguishing the never-filled EMPTY state of the
spec's state machine from a populated one. -/
structure CacheState where
  entries : List (String × String)
  filled : Bool
  deriving DecidableEq

/-- Modelled from the spec: the cache is created empty at client
construction (spec §3, lifecycle). -/
def newClientCache : CacheState := ⟨[], false⟩

/-- Modelled from the spec: the error channel of `TokenForAlias`. The Go
source distinguishes the sentinel `ErrTokenNotFound` from a fetch failure
propagated verbatim from the list call (spec §7 taxonomy). -/
inductive UpdownError where
  | errTokenNotFound
  | fetchErr (msg : String)
  deriving DecidableEq

/-- Outcome of the one full-list fetch the Remote Resource Accessor would
perform during a resolve call: a record sequence or an error (spec §6). -/
inductive FetchResult where
  | ok (records : List CheckRecord)
  | fail (msg : String)
  deriving DecidableEq

/-- Modelled from the spec: rebuilding the mapping from fetched records in
order, later records overwriting earlier ones on alias collision
(spec §4.1 step 3), exactly as a Go `for` loop writing into a fresh map. -/
def buildEntries (records : List CheckRecord) : List (String × String) :=
  records.foldl (fun m r => mapInsert m r.Alias r.Token) []

/-- Everything a `TokenForAlias` call yields: the Go return values
(token string and error), the cache state after the call, and how many
remote fetches the call performed. -/
structure ResolveOutcome where
  token : String
  err : Option UpdownError
  cache : CacheState
  fetchCalls : Nat
  deriving DecidableEq

/-- Modelled from the spec: `CheckService.TokenForAlias` (its Go source
file is missing from the tree; only its tests are present). Step 1: on a
cache hit return the token, no I/O. Step 2: on a miss perform the one
full-list fetch; a failure is propagated as a fetch error with an empty
token, the cache untouched. Step 3: on success discard the old contents
and rebuild from the records. Step 4: re-consult the rebuilt cache; if
still absent return the NotFound sentinel with an empty token — no second
fetch. The `fetch` argument is what the single remote fetch would return
if invoked. -/
def TokenForAlias (st : CacheState) (fetch : FetchResult) (a : String) : ResolveOutcome :=
  match lookupCache st.entries a with
  | some t => ⟨t, none, st, 0⟩
  | none =>
    match fetch with
    | .fail msg => ⟨"", some (.fetchErr msg), st, 1⟩
    | .ok records =>
      let st' : CacheState := ⟨buildEntries records, true⟩
      match lookupCache st'.entries a with
      | some t => ⟨t, none, st', 1⟩
      | none => ⟨"", some .errTokenNotFound, st', 1⟩

/-- The token the spec assigns to an alias after a rebuild from `records`:
the token of the last record carrying that alias, if any
(last-write-wins, spec §3 invariant and §8 property 6). -/
def lastTokenFor (records : List CheckRecord) (k : String) : Option String :=
  records.foldl (fun acc r => if r.Alias = k then some r.Token else acc) none

/-! ### Helper lemmas about the map operations -/

theorem lookupCache_mapInsert (m : List (String × String)) (k' v k : String) :
    lookupCache (mapInsert m k' v) k = if k' = k then some v else lookupCache m k := by
  induction m with
  | nil => simp [mapInsert, lookupCache]
  | cons hd tl ih =>
      obtain ⟨k0, v0⟩ := hd
      by_cases h0 : k0 = k'
      · subst h0
        simp only [mapInsert, if_pos rfl, lookupCache]
        by_cases hk : k0 = k
        · simp [hk]
        · simp [hk]
      · simp only [mapInsert, if_neg h0, lookupCache, ih]
        by_cases hk : k0 = k
        · have hk' : ¬ k' = k := fun h => h0 (hk.trans h.symm)
          simp [hk, hk']
        · simp [hk]

theorem lookupCache_foldl (records : List CheckRecord) (m : List (String × String))
    (k : String) :
    lookupCache (records.foldl (fun m r => mapInsert m r.Alias r.Token) m) k
      = records.foldl (fun acc r => if r.Alias = k then some r.Token else acc)
          (lookupCache m k) := by
  induction records generalizing m with
  | nil => simp
  | cons r rs ih =>
      simp only [List.foldl_cons]
      rw [ih, lookupCache_mapInsert]

theorem lookupCache_buildEntries (records : List CheckRecord) (k : String) :
    lookupCache (buildEntries records) k = lastTokenFor records k := by
  unfold buildEntries lastTokenFor
  rw [lookupCache_foldl]
  simp [lookupCache]

theorem lastTokenFor_of_no_match (records : List CheckRecord) (k : String)
    (h : ∀ r ∈ records, r.Alias ≠ k) : lastTokenFor records k = none := by
  unfold lastTokenFor
  induction records with
  | nil => rfl
  | cons r rs ih =>
      simp only [List.foldl_cons, if_neg (h r (by simp))]
      exact ih fun r' hr' => h r' (by simp [hr'])

theorem lastTokenFor_append_no_match (pre post : List CheckRecord) (r : CheckRecord)
    (h : ∀ r' ∈ post, r'.Alias ≠ r.Alias) :
    lastTokenFor (pre ++ r :: post) r.Alias = some r.Token := by
  unfold lastTokenFor
  rw [List.foldl_append, List.foldl_cons, if_pos rfl]
  induction post with
  | nil => rfl
  | cons p ps ih =>
      simp only [List.foldl_cons, if_neg (h p (by simp))]
      exact ih fun r' hr' => h r' (by simp [hr'])

/-! ### Helper lemmas about the resolve protocol -/

theorem tokenForAlias_hit (st : CacheState) (fetch : FetchResult) (a t : String)
    (h : lookupCache st.entries a = some t) :
    TokenForAlias st fetch a = ⟨t, none, st, 0⟩ := by
  simp [TokenForAlias, h]

theorem tokenForAlias_miss_fail (st : CacheState) (a msg : String)
    (h : lookupCache st.entries a = none) :
    TokenForAlias st (.fail msg) a = ⟨"", some (.fetchErr msg), st, 1⟩ := by
  simp [TokenForAlias, h]

theorem tokenForAlias_miss_ok_found (st : CacheState) (records : List CheckRecord)
    (a t : String) (h : lookupCache st.entries a = none)
    (hf : lastTokenFor records a = some t) :
    TokenForAlias st (.ok records) a = ⟨t, none, ⟨buildEntries records, true⟩, 1⟩ := by
  simp [TokenForAlias, h, lookupCache_buildEntries, hf]

theorem tokenForAlias_miss_ok_absent (st : CacheState) (records : List CheckRecord)
    (a : String) (h : lookupCache st.entries a = none)
    (hf : lastTokenFor records a = none) :
    TokenForAlias st (.ok records) a
      = ⟨"", some .errTokenNotFound, ⟨buildEntries records, true⟩, 1⟩ := by
  simp [TokenForAlias, h, lookupCache_buildEntries, hf]

theorem tokenForAlias_success_cached (st : CacheState) (fetch : FetchResult) (a : String)
    (h : (TokenForAlias st fetch a).err = none) :
    lookupCache (TokenForAlias st fetch a).cache.entries a
      = some (TokenForAlias st fetch a).token := by
  cases hm : lookupCache st.entries a with
  | some t => rw [tokenForAlias_hit st fetch a t hm]; exact hm
  | none =>
      cases fetch with
      | fail msg => rw [tokenForAlias_miss_fail st a msg hm] at h; simp at h
      | ok records =>
          cases hf : lastTokenFor records a with
          | some t =>
              rw [tokenForAlias_miss_ok_found st records a t hm hf]
              simpa [lookupCache_buildEntries] using hf
          | none => rw [tokenForAlias_miss_ok_absent st records a hm hf] at h; simp at h

/-! ### Claim theorems -/

/-- C1: at most one remote fetch is performed per `TokenForAlias` call,
whatever the cache state, the fetch behaviour and the alias; in
particular, when the alias is still absent after the miss-triggered fetch
and rebuild, the call returns the NotFound sentinel having fetched exactly
once — no second fetch is attempted. -/
theorem tokenForAlias_at_most_one_fetch (st : CacheState) (fetch : FetchResult)
    (a : String) :
    (TokenForAlias st fetch a).fetchCalls ≤ 1 ∧
    (∀ records, fetch = .ok records → lookupCache st.entries a = none →
      lastTokenFor records a = none →
      TokenForAlias st fetch a
        = ⟨"", some .errTokenNotFound, ⟨buildEntries records, true⟩, 1⟩) := by
  constructor
  · cases hm : lookupCache st.entries a with
    | some t => simp [tokenForAlias_hit st fetch a t hm]
    | none =>
        cases fetch with
        | fail msg => simp [tokenForAlias_miss_fail st a msg hm]
        | ok records =>
            cases hf : lastTokenFor records a with
            | some t => simp [tokenForAlias_miss_ok_found st records a t hm hf]
            | none => simp [tokenForAlias_miss_ok_absent st records a hm hf]
  · rintro records rfl hm hf
    exact tokenForAlias_miss_ok_absent st records a hm hf

/-- C1 witness: cold cache, fetch yielding one record for alias "A",
resolving the absent alias "Z" — NotFound after exactly one fetch. -/
theorem tokenForAlias_at_most_one_fetch_witness :
    TokenForAlias newClientCache (.ok [⟨"A", "t1"⟩]) "Z"
      = ⟨"", some .errTokenNotFound, ⟨buildEntries [⟨"A", "t1"⟩], true⟩, 1⟩ :=
  (tokenForAlias_at_most_one_fetch newClientCache (.ok [⟨"A", "t1"⟩]) "Z").2
    [⟨"A", "t1"⟩] rfl (by decide) (by decide)

/-- C2: a cache hit returns the mapped token immediately with zero fetches
and an unchanged cache; consequently, after any resolve of `a` that
succeeded with token `t`, resolving `a` again — whatever a further fetch
would return — yields the same `t` with zero additional fetches. -/
theorem tokenForAlias_hit_no_fetch (st : CacheState) (fetch fetch2 : FetchResult)
    (a t : String) :
    (lookupCache st.entries a = some t →
      TokenForAlias st fetch a = ⟨t, none, st, 0⟩) ∧
    ((TokenForAlias st fetch a).err = none → (TokenForAlias st fetch a).token = t →
      TokenForAlias (TokenForAlias st fetch a).cache fetch2 a
        = ⟨t, none, (TokenForAlias st fetch a).cache, 0⟩) := by
  constructor
  · exact fun h => tokenForAlias_hit st fetch a t h
  · intro herr htok
    have hc := tokenForAlias_success_cached st fetch a herr
    rw [htok] at hc
    exact tokenForAlias_hit _ fetch2 a t hc

/-- C2 witness: warm-cache scenario — after a miss-triggered resolve of
"A" found "t1", resolving "A" again returns "t1" with zero fetches. -/
theorem tokenForAlias_hit_no_fetch_witness :
    TokenForAlias (TokenForAlias newClientCache (.ok [⟨"A", "t1"⟩]) "A").cache
        (.ok []) "A"
      = ⟨"t1", none, (TokenForAlias newClientCache (.ok [⟨"A", "t1"⟩]) "A").cache, 0⟩ :=
  (tokenForAlias_hit_no_fetch newClientCache (.ok [⟨"A", "t1"⟩]) (.ok []) "A" "t1").2
    (by decide) (by decide)

/-- C3: a miss-triggered rebuild fully replaces the cache: afterwards every
key resolves exactly to what the fetched records dictate (previous entries
are discarded, not merged), and in particular a key that was present
before the rebuild but matches no fetched record is no longer present. -/
theorem rebuild_replaces_cache (st : CacheState) (records : List CheckRecord)
    (a : String) (hmiss : lookupCache st.entries a = none) :
    (∀ k, lookupCache (TokenForAlias st (.ok records) a).cache.entries k
        = lastTokenFor records k) ∧
    (∀ k tk, lookupCache st.entries k = some tk → (∀ r ∈ records, r.Alias ≠ k) →
      lookupCache (TokenForAlias st (.ok records) a).cache.entries k = none) := by
  have hcache : (TokenForAlias st (.ok records) a).cache
      = ⟨buildEntries records, true⟩ := by
    cases hf : lastTokenFor records a with
    | some t => rw [tokenForAlias_miss_ok_found st records a t hmiss hf]
    | none => rw [tokenForAlias_miss_ok_absent st records a hmiss hf]
  rw [hcache]
  constructor
  · exact fun k => lookupCache_buildEntries records k
  · intro k tk _ hnone
    rw [lookupCache_buildEntries]
    exact lastTokenFor_of_no_match records k hnone

/-- C3 witness: a cache holding "A"↦"t1" misses on "B"; the rebuild from a
result containing only "B" drops "A" entirely. -/
theorem rebuild_replaces_cache_witness :
    lookupCache
      (TokenForAlias ⟨[("A", "t1")], true⟩ (.ok [⟨"B", "t2"⟩]) "B").cache.entries "A"
      = none :=
  (rebuild_replaces_cache ⟨[("A", "t1")], true⟩ [⟨"B", "t2"⟩] "B" (by decide)).2
    "A" "t1" (by decide) (by decide)

/-- C4: a failed miss-triggered fetch is propagated unchanged as a fetch
error carrying the original message, and that error is never the NotFound
sentinel, so the two failure modes stay distinguishable. -/
theorem fetch_failure_propagated (st : CacheState) (a msg : String)
    (hmiss : lookupCache st.entries a = none) :
    (TokenForAlias st (.fail msg) a).err = some (.fetchErr msg) ∧
    (TokenForAlias st (.fail msg) a).err ≠ some .errTokenNotFound := by
  rw [tokenForAlias_miss_fail st a msg hmiss]
  exact ⟨rfl, by simp⟩

/-- C4 witness: a transport error surfaces verbatim on a cold-cache
resolve. -/
theorem fetch_failure_propagated_witness :
    (TokenForAlias newClientCache (.fail "connection refused") "A").err
      = some (.fetchErr "connection refused") :=
  (fetch_failure_propagated newClientCache "A" "connection refused" (by decide)).1

/-- C5: a resolve whose fetch fails leaves the cache exactly as it was —
the failed fetch mutates nothing, for every cache state and alias. -/
theorem failed_fetch_preserves_cache (st : CacheState) (a msg : String) :
    (TokenForAlias st (.fail msg) a).cache = st := by
  cases hm : lookupCache st.entries a with
  | some t => rw [tokenForAlias_hit st (.fail msg) a t hm]
  | none => rw [tokenForAlias_miss_fail st a msg hm]

/-- C6: when the fetch result holds several records with the same alias,
the rebuild is last-write-wins: resolving that alias yields the token of
the last such record, and the rebuilt mapping stores exactly that token. -/
theorem duplicate_alias_last_write_wins (st : CacheState)
    (pre post : List CheckRecord) (r : CheckRecord)
    (hmiss : lookupCache st.entries r.Alias = none)
    (hlast : ∀ r' ∈ post, r'.Alias ≠ r.Alias) :
    TokenForAlias st (.ok (pre ++ r :: post)) r.Alias
      = ⟨r.Token, none, ⟨buildEntries (pre ++ r :: post), true⟩, 1⟩ ∧
    lookupCache (buildEntries (pre ++ r :: post)) r.Alias = some r.Token := by
  have h := lastTokenFor_append_no_match pre post r hlast
  exact ⟨tokenForAlias_miss_ok_found st _ r.Alias r.Token hmiss h,
    by rw [lookupCache_buildEntries]; exact h⟩

/-- C6 witness: records "A"↦"t1" then "A"↦"t2" leave "A" mapped to "t2". -/
theorem duplicate_alias_last_write_wins_witness :
    lookupCache (buildEntries ([⟨"A", "t1"⟩] ++ ⟨"A", "t2"⟩ :: [])) "A" = some "t2" :=
  (duplicate_alias_last_write_wins newClientCache [⟨"A", "t1"⟩] [] ⟨"A", "t2"⟩
    (by decide) (by decide)).2

/-- C7: when the alias is absent from a successful fetch result, the call
returns NotFound yet leaves the cache rebuilt from the result, so a
following resolve of any alias the result does contain is a pure cache hit
with no further fetch, whatever a second fetch would return. -/
theorem notFound_leaves_cache_populated (st : CacheState)
    (records : List CheckRecord) (a b tb : String) (fetch2 : FetchResult)
    (hmiss : lookupCache st.entries a = none)
    (habsent : lastTokenFor records a = none)
    (hb : lastTokenFor records b = some tb) :
    TokenForAlias st (.ok records) a
      = ⟨"", some .errTokenNotFound, ⟨buildEntries records, true⟩, 1⟩ ∧
    TokenForAlias ⟨buildEntries records, true⟩ fetch2 b
      = ⟨tb, none, ⟨buildEntries records, true⟩, 0⟩ := by
  refine ⟨tokenForAlias_miss_ok_absent st records a hmiss habsent, ?_⟩
  apply tokenForAlias_hit
  rw [lookupCache_buildEntries]
  exact hb

/-- C7 witness: after a NotFound resolve of "Z" against a result holding
"A"↦"t1", resolving "A" hits the rebuilt cache with zero fetches even
though a further fetch would fail. -/
theorem notFound_leaves_cache_populated_witness :
    TokenForAlias ⟨buildEntries [⟨"A", "t1"⟩], true⟩ (.fail "down") "A"
      = ⟨"t1", none, ⟨buildEntries [⟨"A", "t1"⟩], true⟩, 0⟩ :=
  (notFound_leaves_cache_populated newClientCache [⟨"A", "t1"⟩] "Z" "A" "t1"
    (.fail "down") (by decide) (by decide) (by decide)).2

/-- C8: the cache starts never-filled and empty at client construction; a
resolve either leaves the state untouched or — exactly on a miss with a
successful fetch — replaces it wholesale by a filled rebuild; and once the
filled flag is set it never reverts. -/
theorem cache_state_machine (st : CacheState) (fetch : FetchResult) (a : String) :
    newClientCache.entries = [] ∧ newClientCache.filled = false ∧
    ((TokenForAlias st fetch a).cache = st ∨
      ∃ records, fetch = .ok records ∧ lookupCache st.entries a = none ∧
        (TokenForAlias st fetch a).cache = ⟨buildEntries records, true⟩) ∧
    (st.filled = true → (TokenForAlias st fetch a).cache.filled = true) := by
  have htrans : (TokenForAlias st fetch a).cache = st ∨
      ∃ records, fetch = .ok records ∧ lookupCache st.entries a = none ∧
        (TokenForAlias st fetch a).cache = ⟨buildEntries records, true⟩ := by
    cases hm : lookupCache st.entries a with
    | some t => left; rw [tokenForAlias_hit st fetch a t hm]
    | none =>
        cases fetch with
        | fail msg => left; rw [tokenForAlias_miss_fail st a msg hm]
        | ok records =>
            right
            refine ⟨records, rfl, rfl, ?_⟩
            cases hf : lastTokenFor records a with
            | some t => rw [tokenForAlias_miss_ok_found st records a t hm hf]
            | none => rw [tokenForAlias_miss_ok_absent st records a hm hf]
  refine ⟨rfl, rfl, htrans, ?_⟩
  intro hfilled
  rcases htrans with h | ⟨records, _, _, h⟩
  · rw [h]; exact hfilled
  · rw [h]

/-- C8 witness: a filled cache stays filled through a resolve that
triggers a fill from an empty result. -/
theorem cache_state_machine_witness :
    (TokenForAlias ⟨[], true⟩ (.ok []) "A").cache.filled = true :=
  (cache_state_machine ⟨[], true⟩ (.ok []) "A").2.2.2 rfl

/-- C9: an empty or whitespace-only alias is not specially rejected: it is
looked up literally as a key and follows the same hit /
miss-fetch-rebuild / NotFound protocol as any other alias. -/
theorem whitespace_alias_not_rejected (st : CacheState) (fetch : FetchResult)
    (s : String) (_hws : ∀ c ∈ s.toList, c.isWhitespace = true) :
    (∀ t, lookupCache st.entries s = some t →
      TokenForAlias st fetch s = ⟨t, none, st, 0⟩) ∧
    (lookupCache st.entries s = none →
      (∀ msg, fetch = .fail msg →
        TokenForAlias st fetch s = ⟨"", some (.fetchErr msg), st, 1⟩) ∧
      (∀ records, fetch = .ok records →
        (∀ t, lastTokenFor records s = some t →
          TokenForAlias st fetch s = ⟨t, none, ⟨buildEntries records, true⟩, 1⟩) ∧
        (lastTokenFor records s = none →
          TokenForAlias st fetch s
            = ⟨"", some .errTokenNotFound, ⟨buildEntries records, true⟩, 1⟩))) := by
  refine ⟨fun t h => tokenForAlias_hit st fetch s t h, fun hm => ⟨?_, ?_⟩⟩
  · rintro msg rfl
    exact tokenForAlias_miss_fail st s msg hm
  · rintro records rfl
    exact ⟨fun t hf => tokenForAlias_miss_ok_found st records s t hm hf,
      fun hf => tokenForAlias_miss_ok_absent st records s hm hf⟩

/-- C9 witness: a tab-only alias, stored literally in the cache, is
resolved as an ordinary hit. -/
theorem whitespace_alias_not_rejected_witness :
    TokenForAlias ⟨[("\t", "t0")], true⟩ (.ok []) "\t"
      = ⟨"t0", none, ⟨[("\t", "t0")], true⟩, 0⟩ :=
  (whitespace_alias_not_rejected ⟨[("\t", "t0")], true⟩ (.ok []) "\t" (by decide)).1
    "t0" (by decide)

/-- C10: whenever `TokenForAlias` fails with the NotFound sentinel, the
token value returned alongside the error is the empty string, for every
cache state, fetch behaviour and alias. -/
theorem notFound_returns_empty_token (st : CacheState) (fetch : FetchResult)
    (a : String) (h : (TokenForAlias st fetch a).err = some .errTokenNotFound) :
    (TokenForAlias st fetch a).token = "" := by
  cases hm : lookupCache st.entries a with
  | some t =>
      rw [tokenForAlias_hit st fetch a t hm] at h
      exact absurd h (by simp)
  | none =>
      cases fetch with
      | fail msg =>
          rw [tokenForAlias_miss_fail st a msg hm] at h
          exact absurd h (by simp)
      | ok records =>
          cases hf : lastTokenFor records a with
          | some t =>
              rw [tokenForAlias_miss_ok_found st records a t hm hf] at h
              exact absurd h (by simp)
          | none => rw [tokenForAlias_miss_ok_absent st records a hm hf]

/-- C10 witness: a cold cache and an empty fetch result make "Z" fail
NotFound, and the returned token is the empty string. -/
theorem notFound_returns_empty_token_witness :
    (TokenForAlias newClientCache (.ok []) "Z").token = "" :=
  notFound_returns_empty_token newClientCache (.ok []) "Z" (by decide)
